import Mathlib

/-
Verification of the company-map web application (Leaflet canvas variant
`src/app.js`, Leaflet cluster variant `src/unnamed/part_001`, Globe.gl
variant `src/unnamed/part_002`).

The JavaScript source is shallowly embedded: strings are Lean `String`s
(lists of Unicode scalar values), spreadsheet rows are association lists
from column name to cell string (a missing key models the JS `undefined`
cell), JS numbers reachable from `parseFloat` are an abstract type `Num`
with `Option Num` modelling number-or-NaN, the geocode cache is an
association list updated by prepending (the JS object property update),
and the HTTP layer is an oracle argument giving the response of the
geocoding service.  JS built-ins (`trim`, `toLowerCase`, `includes`,
single-character `replaceAll`, `localeCompare`-based `sort`) are modelled
by the explicit Lean functions below; `toLowerCase` is modelled on the
Basic Latin range by `Char.toLower`, which is the mapping JS applies to
ASCII data.
-/

namespace CompanyMap

/- ===================  Models of JS string built-ins  =================== -/

/-- Whitespace characters removed by JS `String.prototype.trim`
(ASCII whitespace plus no-break space; the remaining exotic Unicode
space characters are outside the modelled alphabet). -/
def isJsWhitespace (c : Char) : Bool :=
  c == ' ' || c == '\t' || c == '\n' || c == '\r' || c == '\x0b' || c == '\x0c' ||
    c == ' '

/-- Model of JS `String.prototype.trim`: drop leading and trailing
whitespace. -/
def jsTrim (s : String) : String :=
  ⟨((s.data.dropWhile isJsWhitespace).reverse.dropWhile isJsWhitespace).reverse⟩

/-- Model of JS `String.prototype.toLowerCase` on Basic Latin text:
character-wise ASCII lowering. -/
def jsToLower (s : String) : String :=
  ⟨s.data.map Char.toLower⟩

/-- Model of JS `String.prototype.includes`: substring containment. -/
def jsIncludes (hay needle : String) : Bool :=
  decide (needle.data <:+: hay.data)

/-- Model of JS `String.prototype.replaceAll` with a single-character
pattern: replace every occurrence of `c` by `rep`. -/
def jsReplaceAllChar (s : String) (c : Char) (rep : String) : String :=
  ⟨s.data.flatMap (fun x => if x == c then rep.data else [x])⟩

/- ===================  Rows and shared helpers  =================== -/

/-- A parsed spreadsheet row (`XLSX.utils.sheet_to_json` output): an
association list from column name to cell string.  A column name absent
from the list models the JS `undefined` cell `row[col]`. -/
abbrev Row := List (String × String)

/-- Model of the JS property read `row[col]`: first binding wins,
`none` models `undefined`. -/
def jsGet (r : Row) (col : String) : Option String :=
  (r.find? (fun kv => kv.1 == col)).map (fun kv => kv.2)

/-- `normalize` from src/app.js lines 37-40 (= part_001 lines 38-41,
part_002 lines 38-40): `undefined`/`null` become `""`, anything else is
stringified and trimmed. -/
def normalize (v : Option String) : String :=
  match v with
  | none => ""
  | some s => jsTrim s

/-- `escapeHtml` from src/app.js lines 42-49 (= part_001 lines 43-50;
part_002 lines 43-50 uses `replace(/…/g, …)` with the same five global
single-character replacements): sequentially replace `&`, `<`, `>`, `"`,
`'` by their HTML entities. -/
def escapeHtml (str : String) : String :=
  jsReplaceAllChar
    (jsReplaceAllChar
      (jsReplaceAllChar
        (jsReplaceAllChar
          (jsReplaceAllChar str '&' "&amp;")
          '<' "&lt;")
        '>' "&gt;")
      '"' "&quot;")
    '\'' "&#039;"

/-- `makeGeocodeKey` from src/app.js lines 120-122 (= part_001 lines
140-142, part_002 lines 92-94):
`` `${normalize(city).toLowerCase()}|${normalize(country).toLowerCase()}` ``. -/
def makeGeocodeKey (city country : String) : String :=
  jsToLower (normalize (some city)) ++ "|" ++ jsToLower (normalize (some country))

/- ===================  colorForType (three variants)  =================== -/

/-- The shared hash loop of the three `colorForType` variants:
`h = (h * 31 + s.charCodeAt(i)) >>> 0` folded over the characters of `s`
(`>>> 0` is reduction mod 2^32). -/
def typeHashLoop (s : String) : Nat :=
  s.data.foldl (fun h c => (h * 31 + c.toNat) % 4294967296) 0

/-- `colorForType` from src/app.js lines 68-75 (Leaflet canvas variant):
hue from the hash of the normalized type (empty replaced by `"Unknown"`),
rendered as `hsl(hue 85% 45%)`. -/
def colorForType (type : String) : String :=
  let s := if normalize (some type) = "" then "Unknown" else normalize (some type)
  let h := typeHashLoop s
  let hue := h % 360
  "hsl(" ++ toString hue ++ " 85% 45%)"

/-- `colorForType` from src/unnamed/part_001 lines 74-81 (Leaflet cluster
variant): same hash and hue, rendered as `hsl(hue 85% 60%)`. -/
def colorForTypeCluster (type : String) : String :=
  let s := if normalize (some type) = "" then "Unknown" else normalize (some type)
  let h := typeHashLoop s
  let hue := h % 360
  "hsl(" ++ toString hue ++ " 85% 60%)"

/-- `colorForType` from src/unnamed/part_002 lines 53-61 (Globe variant):
same hash and hue, rendered as `hsl(hue, 65%, 55%)`. -/
def colorForTypeGlobe (type : String) : String :=
  let s := if normalize (some type) = "" then "Unknown" else normalize (some type)
  let hash := typeHashLoop s
  let hue := hash % 360
  "hsl(" ++ toString hue ++ ", 65%, 55%)"

/- ===================  Geocoding (cached)  =================== -/

/-- A geocoding result object (`{ lat: parseFloat(...), lon: parseFloat(...) }`
in the Leaflet variants, `{ lat, lng }` in the Globe variant; the Globe field
`lng` is embedded as `lon`).  `parseFloat` may return NaN, modelled by
`none`. -/
structure GeoCoords (Num : Type) where
  lat : Option Num
  lon : Option Num
deriving DecidableEq, Repr

/-- The geocode cache (`geocodeCache`, a JS object persisted in
localStorage): an association list from key to stored entry, where the
stored entry is `none` for a memoized negative result (JS `null`). -/
abbrev GeoCache (Num : Type) := List (String × Option (GeoCoords Num))

/-- JS property read `geocodeCache[key]`: `none` models `undefined`. -/
def cacheGet {Num : Type} (cache : GeoCache Num) (key : String) :
    Option (Option (GeoCoords Num)) :=
  (cache.find? (fun kv => kv.1 == key)).map (fun kv => kv.2)

/-- JS property write `geocodeCache[key] = v` (first binding wins on
lookup, so prepending models overwriting). -/
def cacheSet {Num : Type} (cache : GeoCache Num) (key : String)
    (v : Option (GeoCoords Num)) : GeoCache Num :=
  (key, v) :: cache

/-- One element of the JSON array returned by Nominatim: the `lat` and
`lon` fields are strings in the raw JSON. -/
structure GeoHit where
  lat : String
  lon : String
deriving DecidableEq, Repr

/-- The parsed JSON body of a geocoding response (`await res.json()`). -/
inductive GeoJson where
  | arr (hits : List GeoHit)
  | nonArray
deriving DecidableEq, Repr

/-- The HTTP response of the geocoding service, abstracting `fetch`:
either a non-OK status or an OK response with a JSON body. -/
inductive GeoResponse where
  | notOk (status : Nat)
  | ok (body : GeoJson)
deriving DecidableEq, Repr

/-- The outcome of one `geocodeCityCountry` call: the cache afterwards,
the returned value (`Except` models a thrown error), and whether an HTTP
request was issued. -/
structure GeoOut (Num : Type) where
  cache : GeoCache Num
  result : Except String (Option (GeoCoords Num))
  httpSent : Bool

/-- `geocodeCityCountry` from src/app.js lines 124-152 (= part_001 lines
144-179): return a truthy cached object, return `null` for a cached
`null`, otherwise fetch (`resp` is the oracle for that request); a non-OK
status throws before any cache write, an empty or non-array body memoizes
`null`, and the first hit is parsed and memoized. -/
def geocodeCityCountry {Num : Type} (pf : String → Option Num)
    (resp : GeoResponse) (cache : GeoCache Num) (city country : String) :
    GeoOut Num :=
  match cacheGet cache (makeGeocodeKey city country) with
  | some (some coords) => ⟨cache, .ok (some coords), false⟩
  | some none => ⟨cache, .ok none, false⟩
  | none =>
    match resp with
    | .notOk status =>
        ⟨cache,
         .error ("Geocode failed for \"" ++ normalize (some city) ++ ", " ++
           normalize (some country) ++ "\" (" ++ toString status ++ ")"),
         true⟩
    | .ok body =>
      match body with
      | .arr (hit :: _) =>
          let result : GeoCoords Num := ⟨pf hit.lat, pf hit.lon⟩
          ⟨cacheSet cache (makeGeocodeKey city country) (some result), .ok (some result), true⟩
      | .arr [] => ⟨cacheSet cache (makeGeocodeKey city country) none, .ok none, true⟩
      | .nonArray => ⟨cacheSet cache (makeGeocodeKey city country) none, .ok none, true⟩

/-- `geocodeCityCountry` from src/unnamed/part_002 lines 97-130 (Globe
variant): return any cached entry (`!== undefined` check), otherwise
fetch; any error (non-OK status raises inside the `try`) is caught and
memoizes `null`; an array body with a first hit is parsed and memoized,
any other body memoizes `null`. -/
def geocodeCityCountryGlobe {Num : Type} (pf : String → Option Num)
    (resp : GeoResponse) (cache : GeoCache Num) (city country : String) :
    GeoOut Num :=
  match cacheGet cache (makeGeocodeKey city country) with
  | some v => ⟨cache, .ok v, false⟩
  | none =>
    match resp with
    | .ok (.arr (hit :: _)) =>
        let result : GeoCoords Num := ⟨pf hit.lat, pf hit.lon⟩
        ⟨cacheSet cache (makeGeocodeKey city country) (some result), .ok (some result), true⟩
    | .ok (.arr []) => ⟨cacheSet cache (makeGeocodeKey city country) none, .ok none, true⟩
    | .ok .nonArray => ⟨cacheSet cache (makeGeocodeKey city country) none, .ok none, true⟩
    | .notOk _ => ⟨cacheSet cache (makeGeocodeKey city country) none, .ok none, true⟩

/- ===================  Validation  =================== -/

/-- `REQUIRED` from src/app.js line 6 (= part_001 line 6, part_002
line 15). -/
def REQUIRED : List String := ["Company Name", "Company Type", "Country", "City"]

/-- JS `Set.prototype.add` on a set represented as its insertion-ordered
element list. -/
def jsSetAdd (acc : List String) (k : String) : List String :=
  if k ∈ acc then acc else acc ++ [k]

/-- The column-collection loop shared by `validateColumns` and
`buildFilters` in all variants:
`for (const r of rows) Object.keys(r).forEach((k) => cols.add(k))`. -/
def collectCols (rows : List Row) : List String :=
  rows.foldl (fun acc r => r.foldl (fun a kv => jsSetAdd a kv.1) acc) []

/-- `validateColumns` from src/app.js lines 358-362 (= part_001 lines
390-395, part_002 lines 288-293): the required columns that are not a key
of any row. -/
def validateColumns (rows : List Row) : List String :=
  REQUIRED.filter (fun c => decide (c ∉ collectCols rows))

/- ===================  Filters  =================== -/

/-- The body of `if (v) uniques.add(v)` inside the `buildFilters` loops:
add a non-empty normalized value to the insertion-ordered unique list. -/
def addUnique (acc : List String) (v : String) : List String :=
  if v ≠ "" ∧ v ∉ acc then acc ++ [v] else acc

/-- The per-column unique-value loop of `buildFilters` (src/app.js lines
173-178 = part_001 lines 201-206 = part_002 lines 152-157): scan the rows
adding non-empty normalized values, breaking once the set size exceeds
the cap. -/
def collectUniques (cap : Nat) (col : String) : List Row → List String → List String
  | [], acc => acc
  | r :: rs, acc =>
      let acc2 := addUnique acc (normalize (jsGet r col))
      if acc2.length > cap then acc2 else collectUniques cap col rs acc2

/-- The same loop without the cap: all distinct non-empty normalized
values of a column, in row order. -/
def uniquesAll (col : String) : List Row → List String → List String
  | [], acc => acc
  | r :: rs, acc => uniquesAll col rs (addUnique acc (normalize (jsGet r col)))

/-- The columns of `buildFilters` that receive a dropdown, for a given
cap: a column is skipped when its (capped) unique count is `0` or
exceeds the cap. -/
def dropdownColumnsWithCap (cap : Nat) (rows : List Row) : List String :=
  (collectCols rows).filter (fun col =>
    let uniques := collectUniques cap col rows []
    !(decide (uniques.length = 0)) && !(decide (uniques.length > cap)))

/-- Dropdown columns of `buildFilters` in the Leaflet variants
(src/app.js lines 161-217, part_001 lines 188-245):
`MAX_UNIQUES_FOR_DROPDOWN = 200`. -/
def buildFiltersColumns (rows : List Row) : List String :=
  dropdownColumnsWithCap 200 rows

/-- Dropdown columns of `buildFilters` in the Globe variant
(src/unnamed/part_002 lines 139-189): `MAX_UNIQUES = 150`. -/
def buildFiltersColumnsGlobe (rows : List Row) : List String :=
  dropdownColumnsWithCap 150 rows

/-- The dropdown option values (before sorting) for a selected column:
the capped unique list.  Both variants sort this list with the same
`localeCompare` comparator before rendering, so equal lists yield equal
sorted option lists. -/
def dropdownOptionValues (cap : Nat) (rows : List Row) (col : String) : List String :=
  collectUniques cap col rows []

/-- `loadAndRender` from src/app.js lines 367-387 (= part_001 lines
400-420; part_002 `init` lines 392-404 has the same validation gate),
modelled from the point where the spreadsheet has been parsed into
`rows`: when some required column is missing an error is thrown and
nothing further runs; otherwise the app proceeds to build the filter
dropdowns and to place markers for all rows. -/
def loadAndRender (rows : List Row) : Except String (List String × List Row) :=
  let missing := validateColumns rows
  if missing.length != 0 then
    .error ("Missing required columns: " ++ String.intercalate ", " missing)
  else
    .ok (buildFiltersColumns rows, rows)

/-- `rowMatchesFilters` from src/app.js lines 219-230 (= part_001 lines
247-258, part_002 lines 192-203).  `filtersState` holds the active
column/value pairs, `columnNames` the known columns, `globalSearchTerm`
the (already lowercased) search term. -/
def rowMatchesFilters (filtersState : List (String × String))
    (columnNames : List String) (globalSearchTerm : String) (row : Row) : Bool :=
  filtersState.all (fun cv => normalize (jsGet row cv.1) == cv.2) &&
  (if globalSearchTerm != "" then
    jsIncludes
      (String.intercalate " | "
        (columnNames.map (fun c => jsToLower (normalize (jsGet row c)))))
      globalSearchTerm
  else true)

/- ===================  Marker placement loops  =================== -/

/-- Observable events of one run of a marker-placement loop: an HTTP
geocoding request, an awaited delay (`await sleep(ms)`), a placed
marker, or a skipped row. -/
inductive LoopEv where
  | httpRequest (city country : String)
  | slept (ms : Nat)
  | markerAdded
  | skipped
deriving DecidableEq, Repr

/-- Outcome of one iteration of the Leaflet marker loops. -/
structure StepOut (Num : Type) where
  cache : GeoCache Num
  events : List LoopEv
  aborted : Bool

/-- The body of iteration `i` of `addMarkersForRows` (src/app.js lines
303-333, part_001 lines 332-361), for stride/delay parameters: rows
without city or country `continue` (no delay); a throwing geocode aborts
the loop; a `null` geocode `continue`s (no delay); otherwise a marker is
added and, when `i % stride === 0`, the fixed delay is awaited. -/
def addMarkersStep {Num : Type} (stride delayMs : Nat)
    (pf : String → Option Num) (resp : String → String → GeoResponse)
    (cache : GeoCache Num) (i : Nat) (r : Row) : StepOut Num :=
  let city := normalize (jsGet r "City")
  let country := normalize (jsGet r "Country")
  if city = "" ∨ country = "" then ⟨cache, [.skipped], false⟩
  else
    let g := geocodeCityCountry pf (resp city country) cache city country
    let httpEvs : List LoopEv := if g.httpSent then [.httpRequest city country] else []
    match g.result with
    | .error _ => ⟨g.cache, httpEvs, true⟩
    | .ok none => ⟨g.cache, httpEvs ++ [.skipped], false⟩
    | .ok (some _) =>
        ⟨g.cache,
         httpEvs ++ [.markerAdded] ++
           (if i % stride == 0 then [.slept delayMs] else []),
         false⟩

/-- Cache and event trace of a whole marker loop run. -/
structure LoopOut (Num : Type) where
  cache : GeoCache Num
  events : List LoopEv

/-- The `for (let i = 0; i < rows.length; i++)` loop of
`addMarkersForRows`: iterations run strictly one after the other, each
awaiting its geocode (and possibly its delay) before the next starts; an
uncaught geocode error aborts the remaining iterations. -/
def addMarkersLoop {Num : Type} (stride delayMs : Nat)
    (pf : String → Option Num) (resp : String → String → GeoResponse)
    (cache : GeoCache Num) (i : Nat) : List Row → LoopOut Num
  | [] => ⟨cache, []⟩
  | r :: rs =>
      let st := addMarkersStep stride delayMs pf resp cache i r
      if st.aborted then ⟨st.cache, st.events⟩
      else
        let rest := addMarkersLoop stride delayMs pf resp st.cache (i + 1) rs
        ⟨rest.cache, st.events ++ rest.events⟩

/-- `addMarkersForRows` from src/app.js lines 294-343 (Leaflet canvas
variant): `GEOCODE_DELAY_MS = 650`, delay condition `i % 4 === 0`. -/
def addMarkersForRows {Num : Type} (pf : String → Option Num)
    (resp : String → String → GeoResponse) (cache : GeoCache Num)
    (rows : List Row) : LoopOut Num :=
  addMarkersLoop 4 650 pf resp cache 0 rows

/-- `addMarkersForRows` from src/unnamed/part_001 lines 323-375 (Leaflet
cluster variant): `GEOCODE_DELAY_MS = 800`, delay condition
`i % 3 === 0`. -/
def addMarkersForRowsCluster {Num : Type} (pf : String → Option Num)
    (resp : String → String → GeoResponse) (cache : GeoCache Num)
    (rows : List Row) : LoopOut Num :=
  addMarkersLoop 3 800 pf resp cache 0 rows

/-- A point pushed onto `pointsData` by the Globe variant's
`buildPointsData`. -/
structure GlobePoint (Num : Type) where
  lat : Option Num
  lng : Option Num
  row : Row
  color : String

/-- Outcome of one iteration of the Globe `buildPointsData` loop. -/
structure GlobeStepOut (Num : Type) where
  cache : GeoCache Num
  events : List LoopEv
  point : Option (GlobePoint Num)

/-- The body of the `for (const row of rows)` loop of `buildPointsData`
(src/unnamed/part_002 lines 300-323): `row.Latitude`/`row.Longitude` are
`parseFloat`ed when present (`null` when absent); when both are non-null
non-NaN numbers the row is plotted there directly; otherwise the row is
skipped if city or country is empty, else geocoded (the Globe geocoder
never throws), skipping on `null`.  No delay is ever awaited. -/
def buildPointsStep {Num : Type} (pf : String → Option Num)
    (resp : String → String → GeoResponse) (cache : GeoCache Num)
    (row : Row) : GlobeStepOut Num :=
  let city := normalize (jsGet row "City")
  let country := normalize (jsGet row "Country")
  let latCell : Option (Option Num) := (jsGet row "Latitude").map pf
  let lngCell : Option (Option Num) := (jsGet row "Longitude").map pf
  let type := if normalize (jsGet row "Company Type") = "" then "Unknown"
    else normalize (jsGet row "Company Type")
  match latCell, lngCell with
  | some (some la), some (some ln) =>
      ⟨cache, [.markerAdded], some ⟨some la, some ln, row, colorForTypeGlobe type⟩⟩
  | _, _ =>
      if city = "" ∨ country = "" then ⟨cache, [.skipped], none⟩
      else
        let g := geocodeCityCountryGlobe pf (resp city country) cache city country
        let httpEvs : List LoopEv := if g.httpSent then [.httpRequest city country] else []
        match g.result with
        | .ok (some c) =>
            ⟨g.cache, httpEvs ++ [.markerAdded],
             some ⟨c.lat, c.lon, row, colorForTypeGlobe type⟩⟩
        | _ => ⟨g.cache, httpEvs ++ [.skipped], none⟩

/-- Cache, event trace, and produced points of a `buildPointsData` run. -/
structure PointsOut (Num : Type) where
  cache : GeoCache Num
  events : List LoopEv
  points : List (GlobePoint Num)

/-- `buildPointsData` from src/unnamed/part_002 lines 296-330 (Globe
variant): the sequential `for (const row of rows)` loop, collecting the
pushed points in order. -/
def buildPointsData {Num : Type} (pf : String → Option Num)
    (resp : String → String → GeoResponse) (cache : GeoCache Num) :
    List Row → PointsOut Num
  | [] => ⟨cache, [], []⟩
  | row :: rest =>
      let st := buildPointsStep pf resp cache row
      let r2 := buildPointsData pf resp st.cache rest
      ⟨r2.cache, st.events ++ r2.events,
       (match st.point with
        | some p => p :: r2.points
        | none => r2.points)⟩

/- ===================  Specification-side and proof-support definitions  =================== -/

/-- The hue as C5's words state it: fold `h := (h * 31 + charCode) mod 2^32`
over the trimmed type (empty trimmed type replaced by `"Unknown"`), then
reduce mod 360. -/
def hueSpec (type : String) : Nat :=
  ((if jsTrim type = "" then "Unknown" else jsTrim type).data.foldl
    (fun h c => (h * 31 + c.toNat) % 2 ^ 32) 0) % 360

/-- Concrete data on which the Leaflet and Globe `buildFilters` select
different column sets: a single column with 151 distinct values receives
a dropdown under the Leaflet cap of 200 but none under the Globe cap of
150, refuting C6 as stated. -/
def capCounterRows : List Row :=
  (List.range 151).map (fun i => [("X", Nat.repr i)])

/-- Concrete two-row input for refuting C7 as stated on the Globe variant. -/
def rateRows : List Row :=
  [[("City", "Aarhus"), ("Country", "Denmark")],
   [("City", "Odense"), ("Country", "Denmark")]]

/-- The per-character expansion that the five sequential `escapeHtml`
replacements amount to ('&' is replaced first, so later stages never see
an introduced '&'). -/
def escCharData (c : Char) : List Char :=
  if c = '&' then "&amp;".data
  else if c = '<' then "&lt;".data
  else if c = '>' then "&gt;".data
  else if c = '"' then "&quot;".data
  else if c = '\'' then "&#039;".data
  else [c]

/-- The five replacement entities produced by `escapeHtml`. -/
def htmlEntities : List String := ["&amp;", "&lt;", "&gt;", "&quot;", "&#039;"]

/-- One `jsReplaceAllChar` stage at list level. -/
def escStage (c : Char) (rep : List Char) (l : List Char) : List Char :=
  l.flatMap (fun x => if x == c then rep else [x])

/-- The list-level core of `jsTrim`. -/
def trimData (l : List Char) : List Char :=
  ((l.dropWhile isJsWhitespace).reverse.dropWhile isJsWhitespace).reverse

/- ===================  General lemmas  =================== -/

theorem string_ext {s t : String} (h : s.data = t.data) : s = t := by
  cases s; cases t; exact congrArg String.mk h

theorem mem_jsSetAdd {acc : List String} {k x : String} :
    x ∈ jsSetAdd acc k ↔ x ∈ acc ∨ x = k := by
  unfold jsSetAdd
  split
  · next h =>
      constructor
      · exact fun hx => Or.inl hx
      · rintro (hx | rfl)
        · exact hx
        · exact h
  · simp [List.mem_append]

theorem mem_foldl_keys (r : Row) (acc : List String) (x : String) :
    x ∈ r.foldl (fun a kv => jsSetAdd a kv.1) acc ↔
      x ∈ acc ∨ ∃ kv ∈ r, kv.1 = x := by
  induction r generalizing acc with
  | nil => simp
  | cons kv r ih =>
      rw [List.foldl_cons, ih, mem_jsSetAdd]
      constructor
      · rintro ((hx | rfl) | ⟨kv', hkv', rfl⟩)
        · exact Or.inl hx
        · exact Or.inr ⟨kv, List.mem_cons_self kv r, rfl⟩
        · exact Or.inr ⟨kv', List.mem_cons_of_mem kv hkv', rfl⟩
      · rintro (hx | ⟨kv', hkv', rfl⟩)
        · exact Or.inl (Or.inl hx)
        · rcases List.mem_cons.mp hkv' with rfl | hkv'
          · exact Or.inl (Or.inr rfl)
          · exact Or.inr ⟨kv', hkv', rfl⟩

theorem mem_collectCols {rows : List Row} {x : String} :
    x ∈ collectCols rows ↔ ∃ r ∈ rows, ∃ kv ∈ r, kv.1 = x := by
  unfold collectCols
  suffices h : ∀ acc, x ∈ rows.foldl (fun acc r => r.foldl (fun a kv => jsSetAdd a kv.1) acc) acc ↔
      x ∈ acc ∨ ∃ r ∈ rows, ∃ kv ∈ r, kv.1 = x by
    simpa using h []
  induction rows with
  | nil => simp
  | cons r rows ih =>
      intro acc
      rw [List.foldl_cons, ih, mem_foldl_keys]
      constructor
      · rintro ((hx | hkv) | ⟨r', hr', hkv'⟩)
        · exact Or.inl hx
        · exact Or.inr ⟨r, List.mem_cons_self r rows, hkv⟩
        · exact Or.inr ⟨r', List.mem_cons_of_mem r hr', hkv'⟩
      · rintro (hx | ⟨r', hr', hkv'⟩)
        · exact Or.inl (Or.inl hx)
        · rcases List.mem_cons.mp hr' with rfl | hr'
          · exact Or.inl (Or.inr hkv')
          · exact Or.inr ⟨r', hr', hkv'⟩

theorem jsGet_eq_none {r : Row} {c : String} :
    jsGet r c = none ↔ ∀ kv ∈ r, kv.1 ≠ c := by
  unfold jsGet
  simp [List.find?_eq_none]

/- ===================  C5  =================== -/


/-- C5: marker color is a deterministic hash of the company type, identical
across the three variants up to rendering: each variant's `colorForType`
renders the same hue, namely the fold `h := (h*31 + charCode) mod 2^32`
over the trimmed type (empty replaced by `"Unknown"`) reduced mod 360, and
the variants differ only in the saturation/lightness of the `hsl` string. -/
theorem colorForType_variants_hue (type : String) :
    colorForType type = "hsl(" ++ toString (hueSpec type) ++ " 85% 45%)" ∧
    colorForTypeCluster type = "hsl(" ++ toString (hueSpec type) ++ " 85% 60%)" ∧
    colorForTypeGlobe type = "hsl(" ++ toString (hueSpec type) ++ ", 65%, 55%)" :=
  ⟨rfl, rfl, rfl⟩

/- ===================  C2  =================== -/

/-- C2: `rowMatchesFilters(row)` is true if and only if every active
(column, value) filter pair matches the normalized cell exactly and, when
the global search term is non-empty, the term occurs as a substring of the
`" | "`-joined lowercased normalized values of the row over all known
column names. -/
theorem rowMatchesFilters_characterization (filtersState : List (String × String))
    (columnNames : List String) (globalSearchTerm : String) (row : Row) :
    rowMatchesFilters filtersState columnNames globalSearchTerm row = true ↔
      ((∀ cv ∈ filtersState, normalize (jsGet row cv.1) = cv.2) ∧
       (globalSearchTerm ≠ "" →
        jsIncludes (String.intercalate " | "
          (columnNames.map (fun c => jsToLower (normalize (jsGet row c)))))
          globalSearchTerm = true)) := by
  unfold rowMatchesFilters
  rw [Bool.and_eq_true, List.all_eq_true]
  by_cases ht : globalSearchTerm = ""
  · subst ht
    simp
  · simp [ht]

/- ===================  C3  =================== -/

/-- C3: `validateColumns` returns exactly those of the four required column
names that appear as a key of no row (all four for an empty row list), and
`loadAndRender` throws, without building filters or markers, if and only if
that list is non-empty. -/
theorem validateColumns_gate (rows : List Row) :
    (∀ c, c ∈ validateColumns rows ↔ c ∈ REQUIRED ∧ ∀ r ∈ rows, jsGet r c = none) ∧
    validateColumns ([] : List Row) = REQUIRED ∧
    ((∃ e, loadAndRender rows = .error e) ↔ validateColumns rows ≠ []) ∧
    (∀ out, loadAndRender rows = .ok out →
      validateColumns rows = [] ∧ out = (buildFiltersColumns rows, rows)) := by
  refine ⟨?_, by decide, ?_, ?_⟩
  · intro c
    unfold validateColumns
    rw [List.mem_filter]
    constructor
    · rintro ⟨hreq, hnc⟩
      refine ⟨hreq, fun r hr => ?_⟩
      rw [jsGet_eq_none]
      intro kv hkv hke
      exact (of_decide_eq_true hnc) (mem_collectCols.mpr ⟨r, hr, kv, hkv, hke⟩)
    · rintro ⟨hreq, hnone⟩
      refine ⟨hreq, decide_eq_true ?_⟩
      intro hmem
      rcases mem_collectCols.mp hmem with ⟨r, hr, kv, hkv, hke⟩
      exact (jsGet_eq_none.mp (hnone r hr)) kv hkv hke
  · unfold loadAndRender
    by_cases h : validateColumns rows = []
    · simp [h]
    · have : (validateColumns rows).length ≠ 0 := by
        simpa [List.length_eq_zero] using h
      simp [h, this]
  · intro out
    unfold loadAndRender
    by_cases h : validateColumns rows = []
    · simp [h]
      intro hout
      exact hout.symm
    · have : (validateColumns rows).length ≠ 0 := by
        simpa [List.length_eq_zero] using h
      simp [this]

/- ===================  C9  =================== -/

/-- C9: in the Leaflet variants, for a city/country pair not already
cached, a non-OK HTTP response makes `geocodeCityCountry` throw and leaves
the geocode cache unchanged: no entry, positive or negative, is written
for that key. -/
theorem geocode_error_atomic {Num : Type} (pf : String → Option Num)
    (cache : GeoCache Num) (city country : String) (status : Nat)
    (h : cacheGet cache (makeGeocodeKey city country) = none) :
    (geocodeCityCountry pf (.notOk status) cache city country).cache = cache ∧
    ∃ msg, (geocodeCityCountry pf (.notOk status) cache city country).result =
      .error msg := by
  unfold geocodeCityCountry
  rw [h]
  exact ⟨rfl, _, rfl⟩

/-- Witness for C9 at a concrete uncached pair and a concrete 503. -/
theorem geocode_error_atomic_witness :
    (geocodeCityCountry (fun _ => (none : Option Unit)) (.notOk 503) [] "Lyngby" "Denmark").cache = [] ∧
    ∃ msg, (geocodeCityCountry (fun _ => (none : Option Unit)) (.notOk 503) [] "Lyngby" "Denmark").result = .error msg :=
  geocode_error_atomic (fun _ => none) [] "Lyngby" "Denmark" 503 rfl

/- ===================  C1  =================== -/

theorem cacheGet_cacheSet_self {Num : Type} (cache : GeoCache Num) (key : String)
    (v : Option (GeoCoords Num)) : cacheGet (cacheSet cache key v) key = some v := by
  unfold cacheGet cacheSet
  simp [List.find?]

theorem geocode_hit {Num : Type} (pf : String → Option Num) (resp : GeoResponse)
    (cache : GeoCache Num) (city country : String) (v : Option (GeoCoords Num))
    (h : cacheGet cache (makeGeocodeKey city country) = some v) :
    geocodeCityCountry pf resp cache city country = ⟨cache, .ok v, false⟩ := by
  unfold geocodeCityCountry
  rw [h]
  cases v <;> rfl

theorem geocodeGlobe_hit {Num : Type} (pf : String → Option Num) (resp : GeoResponse)
    (cache : GeoCache Num) (city country : String) (v : Option (GeoCoords Num))
    (h : cacheGet cache (makeGeocodeKey city country) = some v) :
    geocodeCityCountryGlobe pf resp cache city country = ⟨cache, .ok v, false⟩ := by
  unfold geocodeCityCountryGlobe
  rw [h]

theorem geocode_stores {Num : Type} (pf : String → Option Num) (resp : GeoResponse)
    (cache : GeoCache Num) (city country : String) (v : Option (GeoCoords Num))
    (h : (geocodeCityCountry pf resp cache city country).result = .ok v) :
    cacheGet (geocodeCityCountry pf resp cache city country).cache
      (makeGeocodeKey city country) = some v := by
  unfold geocodeCityCountry at h ⊢
  rcases hc : cacheGet cache (makeGeocodeKey city country) with _ | (_ | w) <;>
    rw [hc] at h
  · cases resp with
    | notOk status =>
        dsimp only at h
        exact absurd h (by simp)
    | ok body =>
        cases body with
        | arr hits =>
            cases hits with
            | nil =>
                dsimp only at h ⊢
                simp only [Except.ok.injEq] at h
                subst h
                exact cacheGet_cacheSet_self cache _ none
            | cons hit rest =>
                dsimp only at h ⊢
                simp only [Except.ok.injEq] at h
                subst h
                exact cacheGet_cacheSet_self cache _ _
        | nonArray =>
            dsimp only at h ⊢
            simp only [Except.ok.injEq] at h
            subst h
            exact cacheGet_cacheSet_self cache _ none
  · dsimp only at h ⊢
    simp only [Except.ok.injEq] at h
    subst h
    exact hc
  · dsimp only at h ⊢
    simp only [Except.ok.injEq] at h
    subst h
    exact hc

theorem geocodeGlobe_stores {Num : Type} (pf : String → Option Num) (resp : GeoResponse)
    (cache : GeoCache Num) (city country : String) (v : Option (GeoCoords Num))
    (h : (geocodeCityCountryGlobe pf resp cache city country).result = .ok v) :
    cacheGet (geocodeCityCountryGlobe pf resp cache city country).cache
      (makeGeocodeKey city country) = some v := by
  unfold geocodeCityCountryGlobe at h ⊢
  rcases hc : cacheGet cache (makeGeocodeKey city country) with _ | w <;>
    rw [hc] at h
  · cases resp with
    | notOk status =>
        dsimp only at h ⊢
        simp only [Except.ok.injEq] at h
        subst h
        exact cacheGet_cacheSet_self cache _ none
    | ok body =>
        cases body with
        | arr hits =>
            cases hits with
            | nil =>
                dsimp only at h ⊢
                simp only [Except.ok.injEq] at h
                subst h
                exact cacheGet_cacheSet_self cache _ none
            | cons hit rest =>
                dsimp only at h ⊢
                simp only [Except.ok.injEq] at h
                subst h
                exact cacheGet_cacheSet_self cache _ _
        | nonArray =>
            dsimp only at h ⊢
            simp only [Except.ok.injEq] at h
            subst h
            exact cacheGet_cacheSet_self cache _ none
  · dsimp only at h ⊢
    simp only [Except.ok.injEq] at h
    subst h
    exact hc

/-- C1: geocoding is memoized, negative results included: once a call to
`geocodeCityCountry` (Leaflet variants) or the Globe variant's
`geocodeCityCountry` has completed with a stored value (coordinates on
success, `null` for an empty result list), every later call whose
city/country pair normalizes to the same cache key returns that same
stored value without issuing another HTTP request, whatever the server
would answer. -/
theorem geocode_memoization {Num : Type} (pf : String → Option Num)
    (resp : GeoResponse) (cache : GeoCache Num) (city country : String)
    (v : Option (GeoCoords Num)) :
    ((geocodeCityCountry pf resp cache city country).result = .ok v →
      ∀ (resp' : GeoResponse) (city' country' : String),
        makeGeocodeKey city' country' = makeGeocodeKey city country →
        geocodeCityCountry pf resp'
            (geocodeCityCountry pf resp cache city country).cache city' country' =
          ⟨(geocodeCityCountry pf resp cache city country).cache, .ok v, false⟩) ∧
    ((geocodeCityCountryGlobe pf resp cache city country).result = .ok v →
      ∀ (resp' : GeoResponse) (city' country' : String),
        makeGeocodeKey city' country' = makeGeocodeKey city country →
        geocodeCityCountryGlobe pf resp'
            (geocodeCityCountryGlobe pf resp cache city country).cache city' country' =
          ⟨(geocodeCityCountryGlobe pf resp cache city country).cache, .ok v, false⟩) := by
  constructor
  · intro h resp' city' country' hkey
    apply geocode_hit
    rw [hkey]
    exact geocode_stores pf resp cache city country v h
  · intro h resp' city' country' hkey
    apply geocodeGlobe_hit
    rw [hkey]
    exact geocodeGlobe_stores pf resp cache city country v h

/-- Witness for C1: a first call on an empty cache stores the parsed first
hit; a repeat call with different trimming and letter case, against a
server that would now fail, still returns the stored value without HTTP. -/
theorem geocode_memoization_witness :
    geocodeCityCountry (fun _ => (some () : Option Unit)) (.notOk 404)
        (geocodeCityCountry (fun _ => (some () : Option Unit))
          (.ok (.arr [⟨"55.7", "12.5"⟩])) [] " Lyngby" "Denmark ").cache
        "LYNGBY" "denmark" =
      ⟨(geocodeCityCountry (fun _ => (some () : Option Unit))
          (.ok (.arr [⟨"55.7", "12.5"⟩])) [] " Lyngby" "Denmark ").cache,
       .ok (some ⟨some (), some ()⟩), false⟩ ∧
    geocodeCityCountryGlobe (fun _ => (some () : Option Unit)) (.notOk 404)
        (geocodeCityCountryGlobe (fun _ => (some () : Option Unit))
          (.ok (.arr [])) [] "Atlantis" "Nowhere").cache
        " atlantis" "NOWHERE " =
      ⟨(geocodeCityCountryGlobe (fun _ => (some () : Option Unit))
          (.ok (.arr [])) [] "Atlantis" "Nowhere").cache,
       .ok none, false⟩ :=
  ⟨(geocode_memoization (fun _ => (some () : Option Unit)) (.ok (.arr [⟨"55.7", "12.5"⟩]))
      [] " Lyngby" "Denmark " (some ⟨some (), some ()⟩)).1 rfl (.notOk 404)
      "LYNGBY" "denmark" rfl,
   (geocode_memoization (fun _ => (some () : Option Unit)) (.ok (.arr []))
      [] "Atlantis" "Nowhere" none).2 rfl (.notOk 404)
      " atlantis" "NOWHERE " rfl⟩

/- ===================  C8  =================== -/

theorem buildPointsStep_explicit {Num : Type} (pf : String → Option Num)
    (resp : String → String → GeoResponse) (cache : GeoCache Num) (row : Row)
    (slat slng : String) (la ln : Num)
    (hlat : jsGet row "Latitude" = some slat) (hla : pf slat = some la)
    (hlng : jsGet row "Longitude" = some slng) (hln : pf slng = some ln) :
    buildPointsStep pf resp cache row =
      ⟨cache, [.markerAdded],
       some ⟨some la, some ln, row,
         colorForTypeGlobe (if normalize (jsGet row "Company Type") = "" then "Unknown"
           else normalize (jsGet row "Company Type"))⟩⟩ := by
  unfold buildPointsStep
  rw [hlat, hlng]
  simp only [Option.map_some', hla, hln]

/-- C8: in the Globe variant, explicit coordinates bypass geocoding: a row
whose `Latitude` and `Longitude` cells both `parseFloat` to numbers is
plotted at those coordinates by `buildPointsData`, with no geocoding HTTP
request and no cache change, even when `City` or `Country` is empty; and a
geocoding request can only be issued for a row for which at least one of
the two cells is absent or unparseable. -/
theorem globe_latlng_bypass {Num : Type} (pf : String → Option Num)
    (resp : String → String → GeoResponse) (cache : GeoCache Num) (row : Row)
    (slat slng : String) (la ln : Num)
    (hlat : jsGet row "Latitude" = some slat) (hla : pf slat = some la)
    (hlng : jsGet row "Longitude" = some slng) (hln : pf slng = some ln) :
    (buildPointsStep pf resp cache row =
      ⟨cache, [.markerAdded],
       some ⟨some la, some ln, row,
         colorForTypeGlobe (if normalize (jsGet row "Company Type") = "" then "Unknown"
           else normalize (jsGet row "Company Type"))⟩⟩) ∧
    ((buildPointsData pf resp cache [row]).points =
      [⟨some la, some ln, row,
        colorForTypeGlobe (if normalize (jsGet row "Company Type") = "" then "Unknown"
          else normalize (jsGet row "Company Type"))⟩] ∧
     (buildPointsData pf resp cache [row]).cache = cache) ∧
    (∀ (cache' : GeoCache Num) (row' : Row) (c k : String),
      LoopEv.httpRequest c k ∈ (buildPointsStep pf resp cache' row').events →
      ¬ ∃ (sla : String) (la2 : Num) (sln : String) (ln2 : Num),
          jsGet row' "Latitude" = some sla ∧ pf sla = some la2 ∧
          jsGet row' "Longitude" = some sln ∧ pf sln = some ln2) := by
  have hstep := buildPointsStep_explicit pf resp cache row slat slng la ln hlat hla hlng hln
  refine ⟨hstep, ?_, ?_⟩
  · unfold buildPointsData
    rw [hstep]
    exact ⟨rfl, rfl⟩
  · rintro cache' row' c k hmem ⟨sla, la2, sln, ln2, h1, h2, h3, h4⟩
    rw [buildPointsStep_explicit pf resp cache' row' sla sln la2 ln2 h1 h2 h3 h4] at hmem
    simp at hmem

/-- Witness for C8 at a concrete row with parseable coordinate cells and
no city or country at all. -/
theorem globe_latlng_bypass_witness :
    buildPointsStep (fun _ => (some () : Option Unit))
        (fun _ _ => .notOk 500) [] [("Latitude", "55.7"), ("Longitude", "12.5")] =
      ⟨[], [.markerAdded],
       some ⟨some (), some (), [("Latitude", "55.7"), ("Longitude", "12.5")],
         colorForTypeGlobe "Unknown"⟩⟩ :=
  (globe_latlng_bypass (fun _ => (some () : Option Unit)) (fun _ _ => .notOk 500) []
    [("Latitude", "55.7"), ("Longitude", "12.5")] "55.7" "12.5" () ()
    rfl rfl rfl rfl).1

/- ===================  C6  =================== -/

theorem length_addUnique (acc : List String) (v : String) :
    acc.length ≤ (addUnique acc v).length ∧ (addUnique acc v).length ≤ acc.length + 1 := by
  unfold addUnique
  split <;> simp

theorem length_uniquesAll_mono (col : String) (rows : List Row) (acc : List String) :
    acc.length ≤ (uniquesAll col rows acc).length := by
  induction rows generalizing acc with
  | nil => simp [uniquesAll]
  | cons r rs ih =>
      calc acc.length ≤ (addUnique acc (normalize (jsGet r col))).length :=
            (length_addUnique acc _).1
        _ ≤ (uniquesAll col rs (addUnique acc (normalize (jsGet r col)))).length := ih _
        _ = (uniquesAll col (r :: rs) acc).length := rfl

theorem collectUniques_eq_uniquesAll (cap : Nat) (col : String) (rows : List Row)
    (acc : List String) (h : (uniquesAll col rows acc).length ≤ cap) :
    collectUniques cap col rows acc = uniquesAll col rows acc := by
  induction rows generalizing acc with
  | nil => rfl
  | cons r rs ih =>
      have hstep : uniquesAll col (r :: rs) acc =
          uniquesAll col rs (addUnique acc (normalize (jsGet r col))) := rfl
      rw [hstep] at h
      have hlen : (addUnique acc (normalize (jsGet r col))).length ≤ cap :=
        le_trans (length_uniquesAll_mono col rs _) h
      simp only [collectUniques]
      rw [if_neg (by omega)]
      rw [hstep]
      exact ih _ h

theorem collectUniques_overflow (cap : Nat) (col : String) (rows : List Row)
    (acc : List String) (hacc : acc.length ≤ cap)
    (h : cap < (uniquesAll col rows acc).length) :
    (collectUniques cap col rows acc).length = cap + 1 := by
  induction rows generalizing acc with
  | nil =>
      simp only [uniquesAll] at h
      omega
  | cons r rs ih =>
      have hstep : uniquesAll col (r :: rs) acc =
          uniquesAll col rs (addUnique acc (normalize (jsGet r col))) := rfl
      rw [hstep] at h
      have hb := (length_addUnique acc (normalize (jsGet r col))).2
      by_cases hc : (addUnique acc (normalize (jsGet r col))).length > cap
      · simp only [collectUniques]
        rw [if_pos hc]
        omega
      · simp only [collectUniques]
        rw [if_neg hc]
        exact ih _ (by omega) h

theorem dropdown_mem_iff (cap : Nat) (rows : List Row) (col : String) :
    col ∈ dropdownColumnsWithCap cap rows ↔
      col ∈ collectCols rows ∧ 1 ≤ (uniquesAll col rows []).length ∧
        (uniquesAll col rows []).length ≤ cap := by
  unfold dropdownColumnsWithCap
  rw [List.mem_filter]
  by_cases hn : (uniquesAll col rows []).length ≤ cap
  · rw [collectUniques_eq_uniquesAll cap col rows [] hn]
    constructor
    · rintro ⟨hm, hp⟩
      simp only [Bool.and_eq_true, Bool.not_eq_true', decide_eq_false_iff_not] at hp
      exact ⟨hm, by omega, hn⟩
    · rintro ⟨hm, h1, h2⟩
      refine ⟨hm, ?_⟩
      simp only [Bool.and_eq_true, Bool.not_eq_true', decide_eq_false_iff_not]
      omega
  · have hover : (collectUniques cap col rows []).length = cap + 1 :=
      collectUniques_overflow cap col rows [] (by simp) (by omega)
    constructor
    · rintro ⟨hm, hp⟩
      simp only [Bool.and_eq_true, Bool.not_eq_true', decide_eq_false_iff_not, hover] at hp
      omega
    · rintro ⟨hm, h1, h2⟩
      omega

/-- C6 (amended): each variant's `buildFilters` gives a column a dropdown
exactly when the column's number of distinct non-empty normalized values
is between 1 and that variant's own cap (200 for the Leaflet variants,
150 for the Globe variant); the pre-sort option value lists agree whenever
the count is within the smaller cap, and the two variants select the same
columns for data in which no column's count falls strictly between the two
caps. -/
theorem buildFilters_caps_characterization (rows : List Row) (col : String) :
    (col ∈ buildFiltersColumns rows ↔
      col ∈ collectCols rows ∧ 1 ≤ (uniquesAll col rows []).length ∧
        (uniquesAll col rows []).length ≤ 200) ∧
    (col ∈ buildFiltersColumnsGlobe rows ↔
      col ∈ collectCols rows ∧ 1 ≤ (uniquesAll col rows []).length ∧
        (uniquesAll col rows []).length ≤ 150) ∧
    ((uniquesAll col rows []).length ≤ 150 →
      dropdownOptionValues 200 rows col = dropdownOptionValues 150 rows col) ∧
    ((uniquesAll col rows []).length ≤ 150 ∨ 200 < (uniquesAll col rows []).length →
      (col ∈ buildFiltersColumns rows ↔ col ∈ buildFiltersColumnsGlobe rows)) := by
  refine ⟨dropdown_mem_iff 200 rows col, dropdown_mem_iff 150 rows col, ?_, ?_⟩
  · intro h
    unfold dropdownOptionValues
    rw [collectUniques_eq_uniquesAll 200 col rows [] (by omega),
        collectUniques_eq_uniquesAll 150 col rows [] h]
  · intro h
    unfold buildFiltersColumns buildFiltersColumnsGlobe
    rw [dropdown_mem_iff 200 rows col, dropdown_mem_iff 150 rows col]
    constructor <;> rintro ⟨hm, h1, h2⟩ <;> exact ⟨hm, h1, by omega⟩

/-- Witness for C6's amended statement on one-column data with two
distinct values. -/
theorem buildFilters_caps_witness :
    dropdownOptionValues 200 [[("X", "a")], [("X", "b")]] "X" =
      dropdownOptionValues 150 [[("X", "a")], [("X", "b")]] "X" ∧
    ("X" ∈ buildFiltersColumns [[("X", "a")], [("X", "b")]] ↔
      "X" ∈ buildFiltersColumnsGlobe [[("X", "a")], [("X", "b")]]) :=
  ⟨(buildFilters_caps_characterization [[("X", "a")], [("X", "b")]] "X").2.2.1 (by decide),
   (buildFilters_caps_characterization [[("X", "a")], [("X", "b")]] "X").2.2.2
     (Or.inl (by decide))⟩


set_option maxRecDepth 100000 in
/-- Counterexample to C6 as stated: the two variants do not select the
same set of dropdown columns on `capCounterRows`. -/
theorem buildFilters_caps_counterexample :
    buildFiltersColumns capCounterRows ≠ buildFiltersColumnsGlobe capCounterRows ∧
    buildFiltersColumns capCounterRows = ["X"] ∧
    buildFiltersColumnsGlobe capCounterRows = [] := by
  have h1 : buildFiltersColumns capCounterRows = ["X"] := by decide
  have h2 : buildFiltersColumnsGlobe capCounterRows = [] := by decide
  refine ⟨?_, h1, h2⟩
  rw [h1, h2]
  simp

/- ===================  C7  =================== -/

theorem addMarkersStep_slept_iff {Num : Type} (stride delayMs : Nat)
    (pf : String → Option Num) (resp : String → String → GeoResponse)
    (cache : GeoCache Num) (i : Nat) (r : Row) (ms : Nat) :
    LoopEv.slept ms ∈ (addMarkersStep stride delayMs pf resp cache i r).events ↔
      (ms = delayMs ∧ i % stride = 0 ∧
       LoopEv.markerAdded ∈ (addMarkersStep stride delayMs pf resp cache i r).events) := by
  unfold addMarkersStep
  by_cases hcc : normalize (jsGet r "City") = "" ∨ normalize (jsGet r "Country") = ""
  · rw [if_pos hcc]
    simp
  · rw [if_neg hcc]
    dsimp only
    rcases hg : (geocodeCityCountry pf
        (resp (normalize (jsGet r "City")) (normalize (jsGet r "Country"))) cache
        (normalize (jsGet r "City")) (normalize (jsGet r "Country"))).result with e | v
    · by_cases hs : (geocodeCityCountry pf
          (resp (normalize (jsGet r "City")) (normalize (jsGet r "Country"))) cache
          (normalize (jsGet r "City")) (normalize (jsGet r "Country"))).httpSent <;>
        simp [hs]
    · rcases v with _ | c
      · by_cases hs : (geocodeCityCountry pf
            (resp (normalize (jsGet r "City")) (normalize (jsGet r "Country"))) cache
            (normalize (jsGet r "City")) (normalize (jsGet r "Country"))).httpSent <;>
          simp [hs]
      · by_cases hs : (geocodeCityCountry pf
            (resp (normalize (jsGet r "City")) (normalize (jsGet r "Country"))) cache
            (normalize (jsGet r "City")) (normalize (jsGet r "Country"))).httpSent <;>
          by_cases him : i % stride = 0 <;>
          simp [hs, him]

theorem buildPointsStep_no_sleep {Num : Type} (pf : String → Option Num)
    (resp : String → String → GeoResponse) (cache : GeoCache Num) (row : Row)
    (ms : Nat) :
    LoopEv.slept ms ∉ (buildPointsStep pf resp cache row).events := by
  simp only [buildPointsStep]
  repeat' split
  all_goals simp

theorem buildPointsData_no_sleep {Num : Type} (pf : String → Option Num)
    (resp : String → String → GeoResponse) (rows : List Row) (cache : GeoCache Num)
    (ms : Nat) :
    LoopEv.slept ms ∉ (buildPointsData pf resp cache rows).events := by
  induction rows generalizing cache with
  | nil => simp [buildPointsData]
  | cons row rest ih =>
      simp only [buildPointsData, List.mem_append]
      rintro (h | h)
      · exact buildPointsStep_no_sleep pf resp cache row ms h
      · exact ih _ h

/-- C7 (amended): the marker loops are sequential, but the fixed delay is
awaited only in the Leaflet variants, and there only at iterations whose
index is divisible by the stride (4 in the canvas variant, 3 in the
cluster variant) that actually place a marker; iterations skipped for a
missing or failed location await no delay, and the Globe variant's
`buildPointsData` never awaits a delay at all. -/
theorem rate_limit_characterization {Num : Type} (pf : String → Option Num)
    (resp : String → String → GeoResponse) (cache : GeoCache Num) :
    (∀ (i : Nat) (r : Row) (ms : Nat),
      LoopEv.slept ms ∈ (addMarkersStep 4 650 pf resp cache i r).events ↔
        (ms = 650 ∧ i % 4 = 0 ∧
         LoopEv.markerAdded ∈ (addMarkersStep 4 650 pf resp cache i r).events)) ∧
    (∀ (i : Nat) (r : Row) (ms : Nat),
      LoopEv.slept ms ∈ (addMarkersStep 3 800 pf resp cache i r).events ↔
        (ms = 800 ∧ i % 3 = 0 ∧
         LoopEv.markerAdded ∈ (addMarkersStep 3 800 pf resp cache i r).events)) ∧
    (∀ (i : Nat) (r : Row) (rs : List Row),
      addMarkersLoop 4 650 pf resp cache i (r :: rs) =
        (let st := addMarkersStep 4 650 pf resp cache i r
         if st.aborted then ⟨st.cache, st.events⟩
         else
           let rest := addMarkersLoop 4 650 pf resp st.cache (i + 1) rs
           ⟨rest.cache, st.events ++ rest.events⟩)) ∧
    (∀ (rows : List Row) (ms : Nat),
      LoopEv.slept ms ∉ (buildPointsData pf resp cache rows).events) :=
  ⟨fun i r ms => addMarkersStep_slept_iff 4 650 pf resp cache i r ms,
   fun i r ms => addMarkersStep_slept_iff 3 800 pf resp cache i r ms,
   fun _ _ _ => rfl,
   fun rows ms => buildPointsData_no_sleep pf resp rows cache ms⟩


/-- Counterexample to C7 as stated: the Globe variant's `buildPointsData`
issues two consecutive geocoding requests (row indices 0 and 1, and 0 is
divisible by every stride) with no awaited delay anywhere in the trace. -/
theorem rate_limit_counterexample :
    (buildPointsData (fun _ => (some () : Option Unit))
        (fun _ _ => .ok (.arr [⟨"1", "2"⟩])) [] rateRows).events =
      [.httpRequest "Aarhus" "Denmark", .markerAdded,
       .httpRequest "Odense" "Denmark", .markerAdded] ∧
    ∀ ms, LoopEv.slept ms ∉ (buildPointsData (fun _ => (some () : Option Unit))
        (fun _ _ => .ok (.arr [⟨"1", "2"⟩])) [] rateRows).events := by
  have h : (buildPointsData (fun _ => (some () : Option Unit))
      (fun _ _ => .ok (.arr [⟨"1", "2"⟩])) [] rateRows).events =
      [.httpRequest "Aarhus" "Denmark", .markerAdded,
       .httpRequest "Odense" "Denmark", .markerAdded] := by decide
  refine ⟨h, fun ms => ?_⟩
  rw [h]
  simp

/- ===================  C10  =================== -/




theorem escapeHtml_eq_stages (l : List Char) :
    escapeHtml ⟨l⟩ =
      ⟨escStage '\'' "&#039;".data
        (escStage '"' "&quot;".data
          (escStage '>' "&gt;".data
            (escStage '<' "&lt;".data
              (escStage '&' "&amp;".data l))))⟩ := rfl

theorem escStages_eq_flatMap (l : List Char) :
    escStage '\'' "&#039;".data
      (escStage '"' "&quot;".data
        (escStage '>' "&gt;".data
          (escStage '<' "&lt;".data
            (escStage '&' "&amp;".data l)))) = l.flatMap escCharData := by
  induction l with
  | nil => rfl
  | cons c l ih =>
      simp only [escStage, List.flatMap_cons, List.flatMap_append] at ih ⊢
      rw [ih]
      congr 1
      by_cases h1 : c = '&'
      · subst h1; rfl
      by_cases h2 : c = '<'
      · subst h2; rfl
      by_cases h3 : c = '>'
      · subst h3; rfl
      by_cases h4 : c = '"'
      · subst h4; rfl
      by_cases h5 : c = '\''
      · subst h5; rfl
      simp [escCharData, h1, h2, h3, h4, h5]

theorem escapeHtml_data (l : List Char) :
    (escapeHtml ⟨l⟩).data = l.flatMap escCharData := by
  rw [escapeHtml_eq_stages, escStages_eq_flatMap]

theorem escCharData_no_forbidden (x c : Char) (hc : c ∈ escCharData x) :
    c ≠ '<' ∧ c ≠ '>' ∧ c ≠ '"' ∧ c ≠ '\'' := by
  unfold escCharData at hc
  by_cases h1 : x = '&'
  · subst h1
    rw [if_pos rfl, show ("&amp;".data) = ['&', 'a', 'm', 'p', ';'] from rfl] at hc
    simp only [List.mem_cons, List.not_mem_nil, or_false] at hc
    rcases hc with rfl | rfl | rfl | rfl | rfl <;> decide
  by_cases h2 : x = '<'
  · subst h2
    rw [if_neg (by decide), if_pos rfl,
      show ("&lt;".data) = ['&', 'l', 't', ';'] from rfl] at hc
    simp only [List.mem_cons, List.not_mem_nil, or_false] at hc
    rcases hc with rfl | rfl | rfl | rfl <;> decide
  by_cases h3 : x = '>'
  · subst h3
    rw [if_neg (by decide), if_neg (by decide), if_pos rfl,
      show ("&gt;".data) = ['&', 'g', 't', ';'] from rfl] at hc
    simp only [List.mem_cons, List.not_mem_nil, or_false] at hc
    rcases hc with rfl | rfl | rfl | rfl <;> decide
  by_cases h4 : x = '"'
  · subst h4
    rw [if_neg (by decide), if_neg (by decide), if_neg (by decide), if_pos rfl,
      show ("&quot;".data) = ['&', 'q', 'u', 'o', 't', ';'] from rfl] at hc
    simp only [List.mem_cons, List.not_mem_nil, or_false] at hc
    rcases hc with rfl | rfl | rfl | rfl | rfl | rfl <;> decide
  by_cases h5 : x = '\''
  · subst h5
    rw [if_neg (by decide), if_neg (by decide), if_neg (by decide), if_neg (by decide),
      if_pos rfl, show ("&#039;".data) = ['&', '#', '0', '3', '9', ';'] from rfl] at hc
    simp only [List.mem_cons, List.not_mem_nil, or_false] at hc
    rcases hc with rfl | rfl | rfl | rfl | rfl | rfl <;> decide
  · rw [if_neg h1, if_neg h2, if_neg h3, if_neg h4, if_neg h5,
      List.mem_singleton] at hc
    subst hc
    exact ⟨h2, h3, h4, h5⟩

theorem chunk_amp (c : Char) (a c2 : List Char)
    (h : escCharData c = a ++ '&' :: c2) :
    ∃ ent ∈ htmlEntities, a = [] ∧ ('&' :: c2) = ent.data := by
  unfold escCharData at h
  by_cases h1 : c = '&'
  · subst h1
    rw [if_pos rfl] at h
    cases a with
    | nil =>
        rw [List.nil_append] at h
        exact ⟨"&amp;", by simp [htmlEntities], rfl, h.symm⟩
    | cons x a2 =>
        exfalso
        have htail : ['a', 'm', 'p', ';'] = a2 ++ '&' :: c2 := by
          simpa using congrArg List.tail h
        have hmem : '&' ∈ a2 ++ '&' :: c2 := by simp
        rw [← htail] at hmem
        exact absurd hmem (by decide)
  by_cases h2 : c = '<'
  · subst h2
    rw [if_neg (by decide), if_pos rfl] at h
    cases a with
    | nil =>
        rw [List.nil_append] at h
        exact ⟨"&lt;", by simp [htmlEntities], rfl, h.symm⟩
    | cons x a2 =>
        exfalso
        have htail : ['l', 't', ';'] = a2 ++ '&' :: c2 := by
          simpa using congrArg List.tail h
        have hmem : '&' ∈ a2 ++ '&' :: c2 := by simp
        rw [← htail] at hmem
        exact absurd hmem (by decide)
  by_cases h3 : c = '>'
  · subst h3
    rw [if_neg (by decide), if_neg (by decide), if_pos rfl] at h
    cases a with
    | nil =>
        rw [List.nil_append] at h
        exact ⟨"&gt;", by simp [htmlEntities], rfl, h.symm⟩
    | cons x a2 =>
        exfalso
        have htail : ['g', 't', ';'] = a2 ++ '&' :: c2 := by
          simpa using congrArg List.tail h
        have hmem : '&' ∈ a2 ++ '&' :: c2 := by simp
        rw [← htail] at hmem
        exact absurd hmem (by decide)
  by_cases h4 : c = '"'
  · subst h4
    rw [if_neg (by decide), if_neg (by decide), if_neg (by decide), if_pos rfl] at h
    cases a with
    | nil =>
        rw [List.nil_append] at h
        exact ⟨"&quot;", by simp [htmlEntities], rfl, h.symm⟩
    | cons x a2 =>
        exfalso
        have htail : ['q', 'u', 'o', 't', ';'] = a2 ++ '&' :: c2 := by
          simpa using congrArg List.tail h
        have hmem : '&' ∈ a2 ++ '&' :: c2 := by simp
        rw [← htail] at hmem
        exact absurd hmem (by decide)
  by_cases h5 : c = '\''
  · subst h5
    rw [if_neg (by decide), if_neg (by decide), if_neg (by decide), if_neg (by decide),
      if_pos rfl] at h
    cases a with
    | nil =>
        rw [List.nil_append] at h
        exact ⟨"&#039;", by simp [htmlEntities], rfl, h.symm⟩
    | cons x a2 =>
        exfalso
        have htail : ['#', '0', '3', '9', ';'] = a2 ++ '&' :: c2 := by
          simpa using congrArg List.tail h
        have hmem : '&' ∈ a2 ++ '&' :: c2 := by simp
        rw [← htail] at hmem
        exact absurd hmem (by decide)
  · rw [if_neg h1, if_neg h2, if_neg h3, if_neg h4, if_neg h5] at h
    exfalso
    cases a with
    | nil =>
        rw [List.nil_append] at h
        exact h1 (by simpa using congrArg List.head? h)
    | cons x a2 =>
        have htail : ([] : List Char) = a2 ++ '&' :: c2 := by
          simpa using congrArg List.tail h
        exact absurd htail.symm (by simp)

theorem flatMap_amp_entity (l : List Char) :
    ∀ (a b : List Char), l.flatMap escCharData = a ++ '&' :: b →
      ∃ ent ∈ htmlEntities, ent.data <+: ('&' :: b) := by
  induction l with
  | nil =>
      intro a b h
      exact absurd h (by simp)
  | cons c l ih =>
      intro a b h
      rw [List.flatMap_cons] at h
      rcases List.append_eq_append_iff.mp h with ⟨a2, _, hb⟩ | ⟨c2, hc, hd⟩
      · exact ih a2 b hb
      · cases c2 with
        | nil =>
            exact ih [] b (by simpa using hd.symm)
        | cons x c3 =>
            obtain ⟨hx, hb2⟩ : '&' = x ∧ b = c3 ++ l.flatMap escCharData := by
              simpa using hd
            subst hx
            obtain ⟨ent, hent, _, hdata⟩ := chunk_amp c a c3 hc
            exact ⟨ent, hent, l.flatMap escCharData, by rw [← hdata, hb2]; rfl⟩

/-- C10: HTML escaping is complete: for every input string the output of
`escapeHtml` contains no occurrence of '<', '>', '"' or '\'', and contains
'&' only as the first character of one of the five replacement entities,
so values interpolated into popup, label and legend HTML cannot introduce
markup. -/
theorem escapeHtml_complete (s : String) :
    (∀ c ∈ (escapeHtml s).data, c ≠ '<' ∧ c ≠ '>' ∧ c ≠ '"' ∧ c ≠ '\'') ∧
    (∀ (a b : List Char), (escapeHtml s).data = a ++ '&' :: b →
      ∃ ent ∈ htmlEntities, ent.data <+: ('&' :: b)) := by
  obtain ⟨l⟩ := s
  rw [escapeHtml_data]
  constructor
  · intro c hc
    obtain ⟨x, _, hcx⟩ := List.mem_flatMap.mp hc
    exact escCharData_no_forbidden x c hcx
  · exact flatMap_amp_entity l

/-- Witness for C10 on the concrete input `"a&b"`, whose escape is
`"a&amp;b"`. -/
theorem escapeHtml_complete_witness :
    (∃ ent ∈ htmlEntities, ent.data <+: ('&' :: "amp;b".data)) ∧
    ('a' ≠ '<' ∧ 'a' ≠ '>' ∧ 'a' ≠ '"' ∧ 'a' ≠ '\'') :=
  ⟨(escapeHtml_complete "a&b").2 ['a'] "amp;b".data rfl,
   (escapeHtml_complete "a&b").1 'a' (by decide)⟩

/- ===================  C4  =================== -/

theorem toNat_ofNat_valid (n : Nat) (h : n.isValidChar) : (Char.ofNat n).toNat = n := by
  rw [Char.ofNat, dif_pos h]
  rfl

theorem toLower_toNat_of_upper (c : Char) (h1 : 65 ≤ c.toNat) (h2 : c.toNat ≤ 90) :
    (Char.toLower c).toNat = c.toNat + 32 := by
  unfold Char.toLower
  rw [if_pos ⟨h1, h2⟩]
  exact toNat_ofNat_valid _ (Or.inl (by omega))

theorem toLower_eq_self (c : Char) (h : ¬(65 ≤ c.toNat ∧ c.toNat ≤ 90)) :
    Char.toLower c = c := by
  unfold Char.toLower
  rw [if_neg h]

theorem char_eq_iff_toNat (a b : Char) : a = b ↔ a.toNat = b.toNat := by
  constructor
  · intro h; rw [h]
  · intro h
    apply Char.eq_of_val_eq
    exact UInt32.toNat.inj h

theorem isJsWhitespace_iff (c : Char) :
    isJsWhitespace c = true ↔
      ((((((c.toNat = 32 ∨ c.toNat = 9) ∨ c.toNat = 10) ∨ c.toNat = 13) ∨
        c.toNat = 11) ∨ c.toNat = 12) ∨ c.toNat = 160) := by
  unfold isJsWhitespace
  simp only [Bool.or_eq_true, beq_iff_eq]
  exact or_congr (or_congr (or_congr (or_congr (or_congr (or_congr
    (char_eq_iff_toNat c ' ') (char_eq_iff_toNat c '\t'))
    (char_eq_iff_toNat c '\n')) (char_eq_iff_toNat c '\r'))
    (char_eq_iff_toNat c '\x0b')) (char_eq_iff_toNat c '\x0c'))
    (char_eq_iff_toNat c '\u00A0')

theorem isJsWhitespace_toLower (c : Char) :
    isJsWhitespace (Char.toLower c) = isJsWhitespace c := by
  by_cases h : 65 ≤ c.toNat ∧ c.toNat ≤ 90
  · have h32 := toLower_toNat_of_upper c h.1 h.2
    cases hw : isJsWhitespace (Char.toLower c) with
    | false =>
        cases hw2 : isJsWhitespace c with
        | false => rfl
        | true =>
            exfalso
            have := (isJsWhitespace_iff c).mp hw2
            omega
    | true =>
        exfalso
        have := (isJsWhitespace_iff _).mp hw
        rw [h32] at this
        omega
  · rw [toLower_eq_self c h]

theorem toLower_toLower (c : Char) :
    Char.toLower (Char.toLower c) = Char.toLower c := by
  by_cases h : 65 ≤ c.toNat ∧ c.toNat ≤ 90
  · have h32 := toLower_toNat_of_upper c h.1 h.2
    apply toLower_eq_self
    omega
  · rw [toLower_eq_self c h]
    exact toLower_eq_self c h

theorem dropWhile_all_of_append {p : Char → Bool} (pre l : List Char)
    (h : ∀ c ∈ pre, p c = true) : (pre ++ l).dropWhile p = l.dropWhile p := by
  induction pre with
  | nil => rfl
  | cons a pre ih =>
      rw [List.cons_append, List.dropWhile_cons, if_pos (h a (List.mem_cons_self a pre))]
      exact ih (fun c hc => h c (List.mem_cons_of_mem a hc))

theorem dropWhile_idem (p : Char → Bool) (l : List Char) :
    (l.dropWhile p).dropWhile p = l.dropWhile p := by
  induction l with
  | nil => rfl
  | cons a l ih =>
      rw [List.dropWhile_cons]
      by_cases hpa : p a = true
      · rw [if_pos hpa]
        exact ih
      · rw [if_neg hpa, List.dropWhile_cons, if_neg hpa]

theorem dropWhile_head_not (p : Char → Bool) (l : List Char) (x : Char) (xs : List Char)
    (h : l.dropWhile p = x :: xs) : p x = false := by
  induction l with
  | nil => cases h
  | cons a l ih =>
      rw [List.dropWhile_cons] at h
      by_cases hpa : p a = true
      · rw [if_pos hpa] at h
        exact ih h
      · rw [if_neg hpa] at h
        cases h
        simpa using hpa

theorem getLast?_dropWhile (p : Char → Bool) (l : List Char)
    (h : l.dropWhile p ≠ []) : (l.dropWhile p).getLast? = l.getLast? := by
  induction l with
  | nil => exact absurd rfl h
  | cons a l ih =>
      rw [List.dropWhile_cons] at h ⊢
      by_cases hpa : p a = true
      · rw [if_pos hpa] at h ⊢
        rw [ih h]
        have hl : l ≠ [] := by
          intro hnil
          subst hnil
          exact h rfl
        cases l with
        | nil => exact absurd rfl hl
        | cons b l => rw [List.getLast?_cons_cons]
      · rw [if_neg hpa]


theorem jsTrim_data (s : String) : (jsTrim s).data = trimData s.data := rfl

theorem trimData_pad (p q l : List Char)
    (hp : ∀ c ∈ p, isJsWhitespace c = true)
    (hq : ∀ c ∈ q, isJsWhitespace c = true) :
    trimData (p ++ l ++ q) = trimData l := by
  unfold trimData
  rw [List.append_assoc, dropWhile_all_of_append p (l ++ q) hp]
  rcases hld : l.dropWhile isJsWhitespace with _ | ⟨x, xs⟩
  · have hl : ∀ c ∈ l, isJsWhitespace c = true := by
      intro c hc
      exact List.dropWhile_eq_nil_iff.mp hld c hc
    rw [dropWhile_all_of_append l q hl, List.dropWhile_eq_nil_iff.mpr hq]
  · have happ : (l ++ q).dropWhile isJsWhitespace = (x :: xs) ++ q := by
      rw [List.dropWhile_append, hld]
      rfl
    rw [happ, List.reverse_append,
      dropWhile_all_of_append q.reverse (x :: xs).reverse
        (fun c hc => hq c (List.mem_reverse.mp hc))]

theorem trimData_dropWhile (l : List Char) :
    (trimData l).dropWhile isJsWhitespace = trimData l := by
  unfold trimData
  rcases hA : l.dropWhile isJsWhitespace with _ | ⟨y, ys⟩
  · rfl
  · rcases hB : (y :: ys).reverse.dropWhile isJsWhitespace with _ | ⟨z, zs⟩
    · rfl
    · have hBlast : ((z :: zs) : List Char).getLast? = some y := by
        rw [← hB, getLast?_dropWhile _ _ (by rw [hB]; exact List.cons_ne_nil z zs),
          List.getLast?_reverse]
        rfl
      have hyws : isJsWhitespace y = false := dropWhile_head_not _ l y ys hA
      rcases hrev : ((z :: zs) : List Char).reverse with _ | ⟨w, ws⟩
      · exact absurd hrev (by simp)
      · have hw : w = y := by
          have := List.head?_reverse ((z : Char) :: zs)
          rw [hrev, hBlast] at this
          simpa using this
        rw [List.dropWhile_cons, if_neg (by rw [hw, hyws]; simp)]

theorem trimData_idem (l : List Char) : trimData (trimData l) = trimData l := by
  conv_lhs => rw [trimData]
  rw [trimData_dropWhile]
  have P2 : (trimData l).reverse.dropWhile isJsWhitespace = (trimData l).reverse := by
    unfold trimData
    rw [List.reverse_reverse]
    exact dropWhile_idem _ _
  rw [P2, List.reverse_reverse]

theorem trimData_map_toLower (l : List Char) :
    trimData (l.map Char.toLower) = (trimData l).map Char.toLower := by
  have hcomp : (isJsWhitespace ∘ Char.toLower) = isJsWhitespace :=
    funext isJsWhitespace_toLower
  unfold trimData
  rw [List.dropWhile_map, hcomp, ← List.map_reverse, List.dropWhile_map, hcomp,
    ← List.map_reverse]

theorem map_toLower_idem (l : List Char) :
    (l.map Char.toLower).map Char.toLower = l.map Char.toLower := by
  rw [List.map_map]
  exact List.map_congr_left (fun c _ => toLower_toLower c)

/-- The normalized key part `normalize(x).toLowerCase()`. -/
theorem keyPart_data (s : String) :
    (jsToLower (normalize (some s))).data = (trimData s.data).map Char.toLower := rfl

theorem keyPart_pad (s p q : String)
    (hp : ∀ c ∈ p.data, isJsWhitespace c = true)
    (hq : ∀ c ∈ q.data, isJsWhitespace c = true) :
    jsToLower (normalize (some (p ++ s ++ q))) = jsToLower (normalize (some s)) := by
  apply string_ext
  rw [keyPart_data, keyPart_data]
  congr 1
  show trimData ((p ++ s ++ q).data) = trimData s.data
  rw [String.data_append, String.data_append]
  exact trimData_pad p.data q.data s.data hp hq

theorem keyPart_lower_congr (a b : String) (h : jsToLower a = jsToLower b) :
    jsToLower (normalize (some a)) = jsToLower (normalize (some b)) := by
  have hdata : a.data.map Char.toLower = b.data.map Char.toLower :=
    congrArg String.data h
  apply string_ext
  rw [keyPart_data, keyPart_data, ← trimData_map_toLower, ← trimData_map_toLower, hdata]

theorem keyPart_idem (s : String) :
    jsToLower (normalize (some (jsToLower (normalize (some s))))) =
      jsToLower (normalize (some s)) := by
  apply string_ext
  rw [keyPart_data, keyPart_data]
  show List.map Char.toLower (trimData ((trimData s.data).map Char.toLower)) =
    List.map Char.toLower (trimData s.data)
  rw [trimData_map_toLower, trimData_idem, map_toLower_idem]

/-- C4: the geocode cache key is the normalized `"city|country"` string:
`makeGeocodeKey` is `lowercase(trim(city)) ++ "|" ++ lowercase(trim(country))`,
is invariant under leading/trailing whitespace and letter case of either
input, and is idempotent on already-normalized inputs. -/
theorem makeGeocodeKey_normalization (city country : String) :
    makeGeocodeKey city country =
      jsToLower (jsTrim city) ++ "|" ++ jsToLower (jsTrim country) ∧
    (∀ p q : String, (∀ c ∈ p.data, isJsWhitespace c = true) →
      (∀ c ∈ q.data, isJsWhitespace c = true) →
      makeGeocodeKey (p ++ city ++ q) country = makeGeocodeKey city country) ∧
    (∀ p q : String, (∀ c ∈ p.data, isJsWhitespace c = true) →
      (∀ c ∈ q.data, isJsWhitespace c = true) →
      makeGeocodeKey city (p ++ country ++ q) = makeGeocodeKey city country) ∧
    (∀ city2 country2 : String, jsToLower city2 = jsToLower city →
      jsToLower country2 = jsToLower country →
      makeGeocodeKey city2 country2 = makeGeocodeKey city country) ∧
    makeGeocodeKey (jsToLower (jsTrim city)) (jsToLower (jsTrim country)) =
      makeGeocodeKey city country := by
  refine ⟨rfl, ?_, ?_, ?_, ?_⟩
  · intro p q hp hq
    unfold makeGeocodeKey
    rw [keyPart_pad city p q hp hq]
  · intro p q hp hq
    unfold makeGeocodeKey
    rw [keyPart_pad country p q hp hq]
  · intro city2 country2 h1 h2
    unfold makeGeocodeKey
    rw [keyPart_lower_congr city2 city h1, keyPart_lower_congr country2 country h2]
  · unfold makeGeocodeKey
    rw [show jsToLower (jsTrim city) = jsToLower (normalize (some city)) from rfl,
      show jsToLower (jsTrim country) = jsToLower (normalize (some country)) from rfl,
      keyPart_idem city, keyPart_idem country]

/-- Witness for C4 at concrete padded and re-cased inputs. -/
theorem makeGeocodeKey_normalization_witness :
    makeGeocodeKey (" " ++ "Lyngby" ++ "\t") "Denmark" = makeGeocodeKey "Lyngby" "Denmark" ∧
    makeGeocodeKey "LYNGBY" "denMARK" = makeGeocodeKey "Lyngby" "Denmark" :=
  ⟨(makeGeocodeKey_normalization "Lyngby" "Denmark").2.1 " " "\t"
      (by decide) (by decide),
   (makeGeocodeKey_normalization "Lyngby" "Denmark").2.2.2.1 "LYNGBY" "denMARK"
      rfl rfl⟩

end CompanyMap
